import Mathlib

/-!
# Verification of the AI News Analyst citation-grounded pipeline

Shallow embedding of the repository's core components.  The repository ships
the Astro content-collection schema (`src/content/config.ts`) directly; the
Python agent pipeline (hotness scorer, citation validator, retry controller)
is described by the specification and is modelled from it below, with each
such definition marked `Modelled from the spec:` in its doc comment.
-/

/- ## Citation Validator ("Critic") -/

/-- Modelled from the spec: the trailing-punctuation characters the Critic
ignores immediately after the closing parenthesis of a citation. -/
def isPunct (ch : Char) : Bool :=
  ch = '.' || ch = ',' || ch = '!' || ch = '?' || ch = ';' || ch = ':'

/-- Modelled from the spec: drop punctuation characters from the front of a
(reversed) character list, i.e. from the right edge of the bullet. -/
def dropPunct : List Char → List Char
  | [] => []
  | ch :: rest => if isPunct ch then dropPunct rest else ch :: rest

/-- Modelled from the spec: split a character list at the first occurrence of
`stop`, returning the characters before it and the remainder after it, or
`none` when `stop` does not occur. -/
def takeUntil (stop : Char) : List Char → Option (List Char × List Char)
  | [] => none
  | ch :: rest =>
    if ch = stop then some ([], rest)
    else (takeUntil stop rest).map fun p => (ch :: p.1, p.2)

/-- Modelled from the spec: locate the last citation-shaped token
`[label](url)` of a bullet, working on the reversed character list, ignoring
trailing punctuation, and requiring that nothing but that punctuation follows
the citation.  Returns the URL characters in forward order. -/
def extractCitationRev (l : List Char) : Option (List Char) :=
  match dropPunct l with
  | ')' :: rest =>
    match takeUntil '(' rest with
    | some (urlRev, ']' :: rest3) =>
      match takeUntil '[' rest3 with
      | some (labelRev, _) => if labelRev.isEmpty then none else some urlRev.reverse
      | none => none
    | _ => none
  | _ => none

/-- Modelled from the spec: extract the URL of the bullet's trailing
citation, or `none` when no citation-shaped token ends the bullet. -/
def extractCitation (s : String) : Option String :=
  (extractCitationRev s.data.reverse).map String.mk

/-- Modelled from the spec: split a URL's characters at the first `://`. -/
def splitOnScheme : List Char → Option (List Char × List Char)
  | ':' :: '/' :: '/' :: rest => some ([], rest)
  | ch :: rest => (splitOnScheme rest).map fun p => (ch :: p.1, p.2)
  | [] => none

/-- Modelled from the spec: case-fold the scheme and host of a URL, leaving
the path untouched. -/
def normalizeUrlChars (l : List Char) : List Char :=
  match splitOnScheme l with
  | some (scheme, rest) =>
    let host := rest.takeWhile fun ch => ch ≠ '/'
    let path := rest.dropWhile fun ch => ch ≠ '/'
    scheme.map Char.toLower ++ [':', '/', '/'] ++ host.map Char.toLower ++ path
  | none => l.map Char.toLower

/-- Modelled from the spec: strip a single trailing slash. -/
def stripTrailingSlash (l : List Char) : List Char :=
  match l.getLast? with
  | some '/' => l.dropLast
  | _ => l

/-- Modelled from the spec: URL normalization used on both the admissible URL
set and every cited URL — scheme/host case-fold, strip a single trailing
slash. -/
def normalizeUrl (s : String) : String :=
  String.mk (stripTrailingSlash (normalizeUrlChars s.data))

/-- Modelled from the spec: per-candidate evidence — the preferred primary
URL and the ordered retrieved `(url, excerpt)` pairs. -/
structure EvidenceSet where
  primary_url : String
  sources : List (String × String)
deriving DecidableEq

/-- Modelled from the spec: the normalized admissible URL set of an
`EvidenceSet` — its full URL set, normalized. -/
def admissibleUrls (ev : EvidenceSet) : List String :=
  (ev.primary_url :: ev.sources.map Prod.fst).map normalizeUrl

/-- Modelled from the spec: a draft is a candidate id with its ordered bullet
strings. -/
structure Draft where
  candidate_id : String
  bullets : List String
deriving DecidableEq

/-- Modelled from the spec: the result of one validation call. -/
structure ValidationResult where
  overall_pass : Bool
  verdicts : List Bool
  first_failure_reason : Option String
deriving DecidableEq

/-- Modelled from the spec: a bullet passes iff it ends (up to trailing
punctuation) in a citation token whose normalized URL is a member of the
normalized admissible URL set. -/
def validateBullet (ev : EvidenceSet) (bullet : String) : Bool :=
  match extractCitation bullet with
  | none => false
  | some url => (admissibleUrls ev).contains (normalizeUrl url)

/-- Modelled from the spec: overall_pass requires every bullet to pass and at
least one bullet to exist; an empty draft fails closed. -/
def validateDraft (ev : EvidenceSet) (d : Draft) : ValidationResult :=
  let vs := d.bullets.map (validateBullet ev)
  let pass := !d.bullets.isEmpty && vs.all fun b => b
  ⟨pass, vs, if pass then none else some "citation validation failed"⟩

/- ## Hotness Scorer -/

/-- Modelled from the spec: a raw candidate item as supplied by the Scout. -/
structure Candidate where
  id : Nat
  title : String
  url : String
  rank : Int
  age_hours : ℝ

/-- Modelled from the spec: the hotness score
`score(r, a) = (1 / r) * e^(-a / 24)`. -/
noncomputable def hotnessScore (rank age_hours : ℝ) : ℝ :=
  (1 / rank) * Real.exp (-(age_hours / 24))

/-- Modelled from the spec: the scorer rejects a candidate whose rank is 0 or
negative (a data-quality skip, not a failure) and otherwise computes its
hotness score. -/
noncomputable def scoreCandidate (c : Candidate) : Option ℝ :=
  if c.rank ≤ 0 then none else some (hotnessScore (c.rank : ℝ) c.age_hours)

/-- Modelled from the spec: the ranking step keeps exactly the candidates the
scorer accepts, paired with their scores. -/
noncomputable def rankCandidates (cs : List Candidate) : List (Candidate × ℝ) :=
  cs.filterMap fun c => (scoreCandidate c).map fun s => (c, s)

/- ## Retry/Escalation Controller -/

/-- Modelled from the spec: the per-candidate state machine states. -/
inductive CState where
  | Pending
  | Generating
  | Validating
  | Approved
  | Retrying
  | Skipped
deriving DecidableEq

/-- Modelled from the spec: a draft whose validation passed, together with the
validation result that approved it. -/
structure ApprovedBriefingItem where
  draft : Draft
  result : ValidationResult
deriving DecidableEq

/-- Modelled from the spec: the outcome of running one candidate's state
machine — how many generation attempts were made, the terminal state, and the
approved item when one exists. -/
structure Outcome where
  attempts : Nat
  final : CState
  approved : Option ApprovedBriefingItem
deriving DecidableEq

/-- Modelled from the spec: the Generating → Validating → {Approved, Retrying,
Skipped} loop.  `gen n` is the draft the Draft Generator returns on attempt
`n`; validation is recomputed from scratch against each fresh draft.
`remaining` counts the retries still allowed after the current attempt. -/
def runLoop (ev : EvidenceSet) (gen : Nat → Draft) : Nat → Nat → Outcome
  | remaining, n =>
    let d := gen n
    let vr := validateDraft ev d
    if vr.overall_pass then ⟨n, CState.Approved, some ⟨d, vr⟩⟩
    else
      match remaining with
      | 0 => ⟨n, CState.Skipped, none⟩
      | r + 1 => runLoop ev gen r (n + 1)

/-- Modelled from the spec: run one candidate — skip immediately when the
EvidenceSet is empty, otherwise loop from attempt 1 up to `maxA` attempts. -/
def runCandidate (ev : EvidenceSet) (gen : Nat → Draft) (maxA : Nat) : Outcome :=
  if ev.sources.isEmpty then ⟨0, CState.Skipped, none⟩
  else runLoop ev gen (maxA - 1) 1

/- ## Published-content collection schema (src/content/config.ts) -/

/-- A frontmatter value as Astro hands it to the zod schema. -/
inductive JValue where
  | str (s : String)
  | num (n : Int)
  | bool (b : Bool)
  | arr (elems : List JValue)
  | date (ms : Int)
  | null

/-- The frontmatter fields the `news` collection schema inspects; `none`
means the field is absent. -/
structure RawEntry where
  title : Option JValue
  pubDate : Option JValue
  description : Option JValue
  tags : Option JValue

/-- A frontmatter object that passed the `news` schema; `pubDate` is the
coerced Date (epoch-style integer encoding). -/
structure NewsEntry where
  title : String
  pubDate : Int
  description : String
  tags : List String
deriving DecidableEq

/-- `z.string()`: accept exactly string values. -/
def asString : JValue → Option String
  | .str s => some s
  | _ => none

/-- `z.array(z.string())` element check: every element must be a string. -/
def asStringList : List JValue → Option (List String)
  | [] => some []
  | v :: rest =>
    match asString v, asStringList rest with
    | some s, some l => some (s :: l)
    | _, _ => none

/-- `z.array(z.string())`: accept exactly arrays of strings. -/
def asTags : JValue → Option (List String)
  | .arr l => asStringList l
  | _ => none

/-- The value of a digit character. -/
def digitVal (ch : Char) : Option Nat :=
  if ch.isDigit then some (ch.toNat - 48) else none

/-- A simplified model of JavaScript date-string parsing: an ISO 8601
`YYYY-MM-DD` date with month in 1..12 and day in 1..31. -/
def parseISODate (s : String) : Option (Nat × Nat × Nat) :=
  match s.data with
  | [y1, y2, y3, y4, h1, m1, m2, h2, d1, d2] =>
    match digitVal y1, digitVal y2, digitVal y3, digitVal y4,
          digitVal m1, digitVal m2, digitVal d1, digitVal d2 with
    | some a, some b, some e, some f, some g, some h, some i, some j =>
      if h1 = '-' && h2 = '-' then
        let mo := g * 10 + h
        let da := i * 10 + j
        if 1 ≤ mo && mo ≤ 12 && 1 ≤ da && da ≤ 31 then
          some (((a * 10 + b) * 10 + e) * 10 + f, mo, da)
        else none
      else none
    | _, _, _, _, _, _, _, _ => none
  | _ => none

/-- Injective integer encoding of a parsed calendar date, standing in for the
epoch-milliseconds value of the resulting JavaScript Date.  No claim inspects
the numeric value itself. -/
def isoEncode : Nat × Nat × Nat → Int
  | (y, mo, da) => ((y * 10000 + mo * 100 + da : Nat) : Int)

/-- Model of `z.coerce.date()`: apply JavaScript `new Date(value)` coercion
and fail on an invalid date.  Numbers, Dates, booleans and null all convert
(JavaScript treats them as epoch offsets); strings convert exactly when they
parse as a date (modelled as ISO `YYYY-MM-DD`); arrays are modelled as not
convertible. -/
def jsCoerceDate : JValue → Option Int
  | .date ms => some ms
  | .num n => some n
  | .bool b => some (if b then 1 else 0)
  | .null => some 0
  | .str s => (parseISODate s).map isoEncode
  | .arr _ => none

/-- The `news` collection schema of `src/content/config.ts`:
`z.object({ title: z.string(), pubDate: z.coerce.date(),
description: z.string(), tags: z.array(z.string()) })`.
All four fields are required; validation fails when any is absent or of the
wrong shape. -/
def validateNews (e : RawEntry) : Option NewsEntry :=
  (e.title.bind asString).bind fun t =>
    (e.pubDate.bind jsCoerceDate).bind fun p =>
      (e.description.bind asString).bind fun ds =>
        (e.tags.bind asTags).map fun tg => ⟨t, p, ds, tg⟩

/-- A concrete evidence set, admitting only `https://example.com/a`, used by
the witnesses below. -/
def evA : EvidenceSet := ⟨"https://example.com/a", [("https://example.com/a", "excerpt")]⟩

/-- A draft whose single bullet cites the admissible URL of `evA`. -/
def draftA : Draft := ⟨"c1", ["Fact [Source](https://example.com/a)"]⟩

/-- A generator that returns `draftA` on every attempt. -/
def genA : Nat → Draft := fun _ => draftA

/-- The approved item the run on `evA`/`genA` produces. -/
def itemA : ApprovedBriefingItem := ⟨draftA, ⟨true, [true], none⟩⟩

/-- A generator whose drafts always fail validation (they have no bullets). -/
def genBad : Nat → Draft := fun _ => ⟨"c1", []⟩

/-- A frontmatter object with all four fields well-typed. -/
def entryA : RawEntry :=
  ⟨some (.str "t"), some (.str "2024-01-15"), some (.str "d"),
   some (.arr [.str "ai"])⟩

/-- C1: a bullet whose extracted citation URL, after normalization, is not a
member of the EvidenceSet's normalized admissible URL set is marked failing,
no matter how similar the URL is to an admissible one; the verdict is false
and no substitute URL is ever used. -/
theorem citation_nonmember_fails (ev : EvidenceSet) (bullet url : String)
    (hx : extractCitation bullet = some url)
    (hmem : normalizeUrl url ∉ admissibleUrls ev) :
    validateBullet ev bullet = false := by
  simp only [validateBullet, hx]
  simpa using hmem

/-- C1 witness: `https://example.com/b` is textually close to the admissible
`https://example.com/a`, yet the bullet citing it fails. -/
theorem citation_nonmember_fails_witness :
    validateBullet evA "Fact [Source](https://example.com/b)" = false :=
  citation_nonmember_fails evA "Fact [Source](https://example.com/b)"
    "https://example.com/b" (by decide) (by decide)

/-- C2: the Validator fails closed — a draft with no bullets never passes,
and overall_pass holds exactly when at least one bullet exists and every
bullet passes. -/
theorem empty_draft_fails_closed (ev : EvidenceSet) (d : Draft) :
    (d.bullets = [] → (validateDraft ev d).overall_pass = false) ∧
    ((validateDraft ev d).overall_pass = true ↔
      d.bullets ≠ [] ∧ ∀ b ∈ d.bullets, validateBullet ev b = true) := by
  constructor
  · intro h
    simp [validateDraft, h]
  · simp [validateDraft, List.all_eq_true]

/-- C2 witness: the empty draft is rejected. -/
theorem empty_draft_fails_closed_witness :
    (validateDraft evA ⟨"c1", []⟩).overall_pass = false :=
  (empty_draft_fails_closed evA ⟨"c1", []⟩).1 rfl

/-- C3: the Hotness Scorer computes `score(r, a) = (1 / r) * e^(-a / 24)`,
and for rank ≥ 1 and age ≥ 0 the score is strictly decreasing in the rank and
strictly decreasing in the age. -/
theorem hotness_score_spec :
    (∀ r a : ℝ, hotnessScore r a = (1 / r) * Real.exp (-(a / 24))) ∧
    (∀ r1 r2 a : ℝ, 1 ≤ r1 → r1 < r2 → 0 ≤ a →
      hotnessScore r2 a < hotnessScore r1 a) ∧
    (∀ r a1 a2 : ℝ, 1 ≤ r → 0 ≤ a1 → a1 < a2 →
      hotnessScore r a2 < hotnessScore r a1) := by
  refine ⟨fun r a => rfl, ?_, ?_⟩
  · intro r1 r2 a h1 h12 _
    have hr1 : 0 < r1 := lt_of_lt_of_le zero_lt_one h1
    have hE : 0 < Real.exp (-(a / 24)) := Real.exp_pos _
    have hinv : 1 / r2 < 1 / r1 := one_div_lt_one_div_of_lt hr1 h12
    exact mul_lt_mul_of_pos_right hinv hE
  · intro r a1 a2 hr h0 hlt
    have hr0 : 0 < r := lt_of_lt_of_le zero_lt_one hr
    have hrpos : 0 < 1 / r := one_div_pos.mpr hr0
    have hexp : Real.exp (-(a2 / 24)) < Real.exp (-(a1 / 24)) :=
      Real.exp_lt_exp.mpr (by linarith)
    exact mul_lt_mul_of_pos_left hexp hrpos

/-- C3 witness: at rank 2 the score drops below rank 1, and at age 24 hours
it drops below age 0. -/
theorem hotness_score_spec_witness :
    hotnessScore 2 0 < hotnessScore 1 0 ∧ hotnessScore 1 24 < hotnessScore 1 0 :=
  ⟨hotness_score_spec.2.1 1 2 0 le_rfl one_lt_two le_rfl,
   hotness_score_spec.2.2 1 0 24 le_rfl le_rfl (by norm_num)⟩

/-- C4: a candidate whose rank is 0 or negative is rejected by the scorer —
it scores to `none`, appears in no ranking, and the scorer is a total
function, so the rejection never raises an uncaught failure. -/
theorem invalid_rank_rejected (c : Candidate) (h : c.rank ≤ 0) :
    scoreCandidate c = none ∧
    ∀ (cs : List Candidate) (s : ℝ), (c, s) ∉ rankCandidates cs := by
  have h1 : scoreCandidate c = none := by simp [scoreCandidate, h]
  refine ⟨h1, ?_⟩
  intro cs s hmem
  rw [rankCandidates, List.mem_filterMap] at hmem
  obtain ⟨c', _, heq⟩ := hmem
  rw [Option.map_eq_some'] at heq
  obtain ⟨s', hsome, hpair⟩ := heq
  have hc : c' = c := congrArg Prod.fst hpair
  rw [hc, h1] at hsome
  exact Option.noConfusion hsome

/-- C4 witness: a concrete rank-0 candidate is rejected. -/
theorem invalid_rank_rejected_witness :
    scoreCandidate ⟨1, "t", "https://example.com/a", 0, 0⟩ = none :=
  (invalid_rank_rejected ⟨1, "t", "https://example.com/a", 0, 0⟩ (by decide)).1

/-- Dropping one leading punctuation character of the reversed bullet (i.e.
one trailing character of the bullet) does not change the extracted
citation. -/
theorem extractCitationRev_punct_cons (ch : Char) (hp : isPunct ch = true)
    (x : List Char) : extractCitationRev (ch :: x) = extractCitationRev x := by
  have hdp : dropPunct (ch :: x) = dropPunct x := by simp [dropPunct, hp]
  simp only [extractCitationRev, hdp]

/-- Extraction on a reversed bullet ending in the citation
`[Source](https://example.com/a)` always finds that URL, whatever precedes
it. -/
theorem extractCitationRev_citeA (t : List Char) :
    extractCitationRev (("[Source](https://example.com/a)").data.reverse ++ t) =
      some ("https://example.com/a").data := by
  have h : ("[Source](https://example.com/a)").data.reverse =
      [')', 'a', '/', 'm', 'o', 'c', '.', 'e', 'l', 'p', 'm', 'a', 'x', 'e',
       '/', '/', ':', 's', 'p', 't', 't', 'h', '(', ']', 'e', 'c', 'r', 'u',
       'o', 'S', '['] := by decide
  rw [h]
  simp [extractCitationRev, dropPunct, takeUntil, isPunct]

/-- Appending the citation `[Source](https://example.com/a)` to any prefix
yields a bullet whose extracted citation is exactly that URL. -/
theorem extractCitation_append (B : String) :
    extractCitation (B ++ "[Source](https://example.com/a)") =
      some "https://example.com/a" := by
  obtain ⟨l⟩ := B
  show (extractCitationRev
    (String.mk l ++ "[Source](https://example.com/a)").data.reverse).map String.mk = _
  have hd : (String.mk l ++ "[Source](https://example.com/a)").data =
      l ++ ("[Source](https://example.com/a)").data := rfl
  rw [hd, List.reverse_append, extractCitationRev_citeA]
  rfl

/-- The same with a trailing period after the citation. -/
theorem extractCitation_append_period (B : String) :
    extractCitation (B ++ "[Source](https://example.com/a).") =
      some "https://example.com/a" := by
  obtain ⟨l⟩ := B
  show (extractCitationRev
    (String.mk l ++ "[Source](https://example.com/a).").data.reverse).map String.mk = _
  have hd : (String.mk l ++ "[Source](https://example.com/a).").data =
      l ++ ("[Source](https://example.com/a).").data := rfl
  have h2 : ("[Source](https://example.com/a).").data.reverse =
      '.' :: ("[Source](https://example.com/a)").data.reverse := by decide
  rw [hd, List.reverse_append, h2, List.cons_append,
    extractCitationRev_punct_cons '.' (by decide), extractCitationRev_citeA]
  rfl

/-- C5: when `https://example.com/a` is admissible, a bullet body followed by
`[Source](https://example.com/a).` receives the same verdict as the same body
followed by `[Source](https://example.com/a)` — trailing punctuation after
the closing parenthesis never changes the verdict — and both pass. -/
theorem trailing_punct_no_effect (ev : EvidenceSet) (B : String)
    (hmem : normalizeUrl "https://example.com/a" ∈ admissibleUrls ev) :
    validateBullet ev (B ++ "[Source](https://example.com/a).") =
      validateBullet ev (B ++ "[Source](https://example.com/a)") ∧
    validateBullet ev (B ++ "[Source](https://example.com/a)") = true := by
  have h1 := extractCitation_append B
  have h2 := extractCitation_append_period B
  constructor
  · simp [validateBullet, h1, h2]
  · simp only [validateBullet, h1]
    simpa using hmem

/-- C5 witness: a concrete bullet body with the admissible evidence set. -/
theorem trailing_punct_no_effect_witness :
    validateBullet evA ("Fact " ++ "[Source](https://example.com/a).") =
      validateBullet evA ("Fact " ++ "[Source](https://example.com/a)") ∧
    validateBullet evA ("Fact " ++ "[Source](https://example.com/a)") = true :=
  trailing_punct_no_effect evA "Fact " (by decide)

/-- C6: with `max_attempts = 3` and a generator whose drafts always fail
validation, the controller makes exactly 3 generation attempts and ends in
the terminal state Skipped; the run function is total, so it never loops. -/
theorem retry_bound_three (ev : EvidenceSet) (gen : Nat → Draft)
    (hne : ev.sources.isEmpty = false)
    (hfail : ∀ n, (validateDraft ev (gen n)).overall_pass = false) :
    runCandidate ev gen 3 = ⟨3, CState.Skipped, none⟩ := by
  simp [runCandidate, hne, runLoop, hfail]

/-- C6 witness: a concrete always-failing generator run on `evA`. -/
theorem retry_bound_three_witness :
    runCandidate evA genBad 3 = ⟨3, CState.Skipped, none⟩ :=
  retry_bound_three evA genBad (by decide) fun _ => rfl

/-- The retry loop only ever approves an item whose stored validation result
was recomputed from that item's own draft against the given evidence set, a
draft freshly produced by the generator at some attempt. -/
theorem runLoop_approved_sound (ev : EvidenceSet) (gen : Nat → Draft) :
    ∀ (remaining n : Nat) (item : ApprovedBriefingItem),
      (runLoop ev gen remaining n).approved = some item →
      item.result = validateDraft ev item.draft ∧
      item.result.overall_pass = true ∧ ∃ k, item.draft = gen k := by
  intro remaining
  induction remaining with
  | zero =>
    intro n item h
    rw [runLoop] at h
    by_cases hp : (validateDraft ev (gen n)).overall_pass = true
    · simp only [hp, if_true] at h
      obtain rfl : (⟨gen n, validateDraft ev (gen n)⟩ : ApprovedBriefingItem) = item :=
        Option.some.inj h
      exact ⟨rfl, hp, n, rfl⟩
    · simp only [hp, if_false] at h
      exact absurd h (by simp)
  | succ r ih =>
    intro n item h
    rw [runLoop] at h
    by_cases hp : (validateDraft ev (gen n)).overall_pass = true
    · simp only [hp, if_true] at h
      obtain rfl : (⟨gen n, validateDraft ev (gen n)⟩ : ApprovedBriefingItem) = item :=
        Option.some.inj h
      exact ⟨rfl, hp, n, rfl⟩
    · simp only [hp, if_false] at h
      exact ih (n + 1) item h

/-- C8: whenever a run produces an ApprovedBriefingItem, the item carries a
ValidationResult equal to validating exactly the approved draft against the
candidate's own EvidenceSet, that result passes overall, every bullet of the
approved draft passes, and the draft is one the generator produced on some
attempt — never a stale result from a different attempt's draft. -/
theorem approved_item_validated (ev : EvidenceSet) (gen : Nat → Draft)
    (maxA : Nat) (item : ApprovedBriefingItem)
    (happ : (runCandidate ev gen maxA).approved = some item) :
    item.result = validateDraft ev item.draft ∧
    item.result.overall_pass = true ∧
    (∀ b ∈ item.draft.bullets, validateBullet ev b = true) ∧
    ∃ k, item.draft = gen k := by
  rw [runCandidate] at happ
  by_cases hemp : ev.sources.isEmpty = true
  · rw [if_pos hemp] at happ
    exact absurd happ (by simp)
  · rw [if_neg hemp] at happ
    obtain ⟨hres, hpass, k, hdraft⟩ := runLoop_approved_sound ev gen (maxA - 1) 1 item happ
    refine ⟨hres, hpass, ?_, k, hdraft⟩
    intro b hb
    rw [hres] at hpass
    simp only [validateDraft, Bool.and_eq_true, List.all_eq_true] at hpass
    exact hpass.2 (validateBullet ev b) (List.mem_map_of_mem _ hb)

/-- C8 witness: the approving run on `evA` with generator `genA`. -/
theorem approved_item_validated_witness :
    itemA.result = validateDraft evA itemA.draft ∧
    itemA.result.overall_pass = true ∧
    (∀ b ∈ itemA.draft.bullets, validateBullet evA b = true) ∧
    ∃ k, itemA.draft = genA k :=
  approved_item_validated evA genA 3 itemA (by decide)

/-- `z.string()` accepts exactly the string values. -/
theorem asString_eq_some (v : JValue) (s : String) :
    asString v = some s ↔ v = JValue.str s := by
  cases v <;> simp [asString]

/-- `z.array(z.string())` accepts exactly arrays of string values. -/
theorem asTags_eq_some (v : JValue) (g : List String) :
    asTags v = some g ↔ ∃ l, v = JValue.arr l ∧ asStringList l = some g := by
  cases v <;> simp [asTags]

/-- Every element of a list accepted by `asStringList` is a string value. -/
theorem asStringList_strings :
    ∀ (l : List JValue) (g : List String), asStringList l = some g →
      ∀ v ∈ l, ∃ s, v = JValue.str s := by
  intro l
  induction l with
  | nil => simp
  | cons v rest ih =>
    intro g h w hw
    rw [asStringList] at h
    cases hv : asString v with
    | none => rw [hv] at h; exact absurd h (by simp)
    | some s =>
      rw [hv] at h
      cases hr : asStringList rest with
      | none => rw [hr] at h; exact absurd h (by simp)
      | some gr =>
        rcases List.mem_cons.mp hw with rfl | hw'
        · exact ⟨s, (asString_eq_some w s).mp hv⟩
        · exact ih gr hr w hw'

/-- A list of string values round-trips through `asStringList`. -/
theorem asStringList_map_str (g : List String) :
    asStringList (g.map JValue.str) = some g := by
  induction g with
  | nil => rfl
  | cons s rest ih => simp [asStringList, asString, ih]

/-- C9: the `news` collection schema accepts a frontmatter object only when
`title` is a string, `description` is a string, and `tags` is an array of
strings; an object with any of these absent or of the wrong type fails
validation and is never published. -/
theorem news_schema_shape (e : RawEntry) (out : NewsEntry)
    (h : validateNews e = some out) :
    (∃ s, e.title = some (JValue.str s)) ∧
    (∃ s, e.description = some (JValue.str s)) ∧
    (∃ l, e.tags = some (JValue.arr l) ∧ ∀ v ∈ l, ∃ s, v = JValue.str s) := by
  rw [validateNews, Option.bind_eq_some] at h
  obtain ⟨t, ht, h⟩ := h
  rw [Option.bind_eq_some] at h
  obtain ⟨p, _, h⟩ := h
  rw [Option.bind_eq_some] at h
  obtain ⟨ds, hds, h⟩ := h
  rw [Option.map_eq_some'] at h
  obtain ⟨tg, htg, _⟩ := h
  rw [Option.bind_eq_some] at ht
  obtain ⟨tv, htv, hts⟩ := ht
  rw [Option.bind_eq_some] at hds
  obtain ⟨dv, hdv, hdss⟩ := hds
  rw [Option.bind_eq_some] at htg
  obtain ⟨gv, hgv, hgs⟩ := htg
  obtain ⟨l, rfl, hl⟩ := (asTags_eq_some gv tg).mp hgs
  exact ⟨⟨t, by rw [htv, (asString_eq_some tv t).mp hts]⟩,
    ⟨ds, by rw [hdv, (asString_eq_some dv ds).mp hdss]⟩,
    ⟨l, hgv, asStringList_strings l tg hl⟩⟩

/-- C9 witness: a fully well-typed frontmatter object is accepted and has the
three required shapes. -/
theorem news_schema_shape_witness :
    (∃ s, entryA.title = some (JValue.str s)) ∧
    (∃ s, entryA.description = some (JValue.str s)) ∧
    (∃ l, entryA.tags = some (JValue.arr l) ∧ ∀ v ∈ l, ∃ s, v = JValue.str s) :=
  news_schema_shape entryA ⟨"t", 20240115, "d", ["ai"]⟩ rfl

/-- C10: the schema coerces `pubDate` instead of requiring a Date value: with
the other three fields well-typed, any `pubDate` value the date coercion
converts makes validation succeed with the coerced Date in the output, and
any value it cannot convert makes validation fail. -/
theorem pubdate_coerced (t ds : String) (g : List String) (v : JValue) :
    (∀ dt, jsCoerceDate v = some dt →
      validateNews ⟨some (.str t), some v, some (.str ds),
        some (.arr (g.map .str))⟩ = some ⟨t, dt, ds, g⟩) ∧
    (jsCoerceDate v = none →
      validateNews ⟨some (.str t), some v, some (.str ds),
        some (.arr (g.map .str))⟩ = none) := by
  constructor
  · intro dt h
    simp [validateNews, asString, asTags, asStringList_map_str, h]
  · intro h
    simp [validateNews, asString, asTags, h]

/-- C10 witness: an ISO 8601 date string is coerced and accepted; a
non-date string is rejected. -/
theorem pubdate_coerced_witness :
    validateNews ⟨some (.str "t"), some (.str "2024-01-15"), some (.str "d"),
      some (.arr [.str "ai"])⟩ = some ⟨"t", 20240115, "d", ["ai"]⟩ ∧
    validateNews ⟨some (.str "t"), some (.str "not a date"), some (.str "d"),
      some (.arr [.str "ai"])⟩ = none :=
  ⟨(pubdate_coerced "t" "d" ["ai"] (.str "2024-01-15")).1 20240115 rfl,
   (pubdate_coerced "t" "d" ["ai"] (.str "not a date")).2 rfl⟩
